import Mathlib

/-!
Shallow embedding of the GTFS transit service of `pebble-transit-server`
(`src/services/gtfsService.ts`).  JavaScript `Map`s are modelled as
insertion-ordered association lists (`List (String × β)`): `Map.get` is
`mapGet`, `Map.set` is `mapSet` (update in place when the key exists,
append otherwise), and the `has`/`set`/`push` idiom used to build
grouped results is `mapPush`.  Unix timestamps and other JS numbers that
the code treats as integers are modelled as `Int`; geographic
coordinates and distances are modelled as real numbers.
-/

namespace PebbleTransit

/-- `GTFSRoute` record from `types/gtfs.ts`. -/
structure GTFSRoute where
  routeId : String
  shortName : String
  longName : String
  routeColor : String
  routeTextColor : String
deriving Repr, DecidableEq

/-- `GTFSTrip` record from `types/gtfs.ts`. -/
structure GTFSTrip where
  tripId : String
  routeId : String
  tripHeadsign : String
deriving Repr, DecidableEq

/-- `GTFSStopTime` record from `types/gtfs.ts` (only the fields the
service populates in `loadStopTimes`). -/
structure GTFSStopTime where
  tripId : String
  arrivalTime : String
  departureTime : String
  stopId : String
  stopSequence : Int
deriving Repr, DecidableEq

/-- `GTFSStop` record from `types/gtfs.ts` (the fields populated by
`loadStops`); coordinates are real numbers. -/
structure GTFSStop where
  stopId : String
  stopName : String
  stopDesc : Option String
  stopLat : ℝ
  stopLon : ℝ
  stopCode : Option String

/-- JS `Map.get` on an insertion-ordered association list. -/
def mapGet {β : Type} (k : String) : List (String × β) → Option β
  | [] => none
  | p :: ps => if p.1 = k then some p.2 else mapGet k ps

/-- JS `Map.set`: overwrite in place when the key is present, append a
new binding at the end otherwise. -/
def mapSet {β : Type} (k : String) (v : β) (m : List (String × β)) :
    List (String × β) :=
  if (mapGet k m).isSome then
    m.map (fun p => if p.1 = k then (k, v) else p)
  else m ++ [(k, v)]

/-- The `if (!m.has(k)) m.set(k, []); m.get(k)?.push(v)` idiom used to
build grouped results. -/
def mapPush {β : Type} (k : String) (v : β) (m : List (String × List β)) :
    List (String × List β) :=
  match mapGet k m with
  | some l => mapSet k (l ++ [v]) m
  | none => m ++ [(k, [v])]

/-- `GTFSService.getArrivalStatus` (gtfsService.ts lines 485-491). -/
def getArrivalStatus (minutesUntil : Int) (delaySeconds : Int) : String :=
  if minutesUntil ≤ 1 then "Arriving"
  else if minutesUntil ≤ 2 then "Due"
  else if 300 < delaySeconds then "Delayed"
  else if delaySeconds < -60 then "Early"
  else toString minutesUntil ++ " min"

/-- `GTFSService.getDepartureStatus` (gtfsService.ts lines 493-497). -/
def getDepartureStatus (minutesUntil : Int) : String :=
  if minutesUntil ≤ 1 then "Departing"
  else if minutesUntil ≤ 2 then "Due"
  else toString minutesUntil ++ " min"

/-- The fallback route synthesized by `getOrCreateRoute` when the id is
unknown: `const [shortName] = routeId.split("-")`, `shortName || routeId`,
long name `routeId`, default black/white colors. -/
def synthesizedRoute (routeId : String) : GTFSRoute :=
  let shortName := (routeId.splitOn "-").headD ""
  { routeId := routeId
    shortName := if shortName = "" then routeId else shortName
    longName := routeId
    routeColor := "000000"
    routeTextColor := "FFFFFF" }

/-- `GTFSService.getOrCreateRoute` (gtfsService.ts lines 308-324),
returning the route together with the updated route index. -/
def getOrCreateRoute (routes : List (String × GTFSRoute)) (routeId : String) :
    GTFSRoute × List (String × GTFSRoute) :=
  match mapGet routeId routes with
  | some route => (route, routes)
  | none =>
    let route := synthesizedRoute routeId
    (route, mapSet routeId route routes)

theorem mapGet_nil {β : Type} (k : String) : mapGet k ([] : List (String × β)) = none := rfl

theorem mapGet_cons {β : Type} (k : String) (p : String × β) (ps : List (String × β)) :
    mapGet k (p :: ps) = if p.1 = k then some p.2 else mapGet k ps := rfl

theorem mapGet_map_overwrite {β : Type} (k : String) (v : β) :
    ∀ m : List (String × β), (mapGet k m).isSome →
      mapGet k (m.map (fun p => if p.1 = k then (k, v) else p)) = some v
  | [], h => by simp [mapGet_nil] at h
  | p :: ps, h => by
    by_cases hp : p.1 = k
    · simp [mapGet_cons, hp]
    · rw [mapGet_cons, if_neg hp] at h
      rw [List.map_cons]
      rw [mapGet_cons]
      simp only [hp, if_false]
      exact mapGet_map_overwrite k v ps h

theorem mapGet_append_of_none {β : Type} (k : String) (v : β) :
    ∀ m : List (String × β), mapGet k m = none →
      mapGet k (m ++ [(k, v)]) = some v
  | [], _ => by simp [mapGet_cons, mapGet_nil]
  | p :: ps, h => by
    rw [mapGet_cons] at h
    by_cases hp : p.1 = k
    · simp [hp] at h
    · rw [if_neg hp] at h
      rw [List.cons_append, mapGet_cons, if_neg hp]
      exact mapGet_append_of_none k v ps h

/-- After `mapSet k v m`, looking up `k` yields `v`. -/
theorem mapGet_mapSet_self {β : Type} (k : String) (v : β)
    (m : List (String × β)) : mapGet k (mapSet k v m) = some v := by
  by_cases h : (mapGet k m).isSome
  · rw [mapSet, if_pos h]
    exact mapGet_map_overwrite k v m h
  · rw [mapSet, if_neg h]
    exact mapGet_append_of_none k v m (Option.not_isSome_iff_eq_none.mp h)

/-- One `stopTimeUpdate` of a decoded trip-update entity.  The JS guard
`update.arrival && update.arrival.time` is modelled by `arrivalTime`
being `some t` with `t ≠ 0` (protobuf `time` is absent or a number;
`0` is falsy in JS). -/
structure StopTimeUpdate where
  stopId : Option String
  arrivalTime : Option Int
  arrivalDelay : Option Int
  arrivalUncertainty : Option Int
  scheduleRelationship : Option String
deriving Repr, DecidableEq

/-- The `tripUpdate` payload of a feed entity: `trip.tripId`,
`trip.routeId` and the stop-time updates. -/
structure TripUpdatePayload where
  tripId : Option String
  routeId : Option String
  stopTimeUpdates : List StopTimeUpdate
deriving Repr, DecidableEq

/-- A decoded feed entity; entities without a `tripUpdate` are skipped
by `getNextArrivals`. -/
structure FeedEntity where
  tripUpdate : Option TripUpdatePayload
deriving Repr, DecidableEq

/-- The record pushed into the per-route `arrivals` map
(gtfsService.ts lines 402-413): `delay: update.arrival.delay || 0`,
`uncertainty: update.arrival.uncertainty || undefined`. -/
structure ArrivalRec where
  time : Int
  tripId : String
  delay : Int
  uncertainty : Option Int
  scheduleRelationship : Option String
deriving Repr, DecidableEq

/-- Builds the `ArrivalRec` pushed for a matching update; `|| 0` maps an
absent delay to `0`, `|| undefined` maps an uncertainty of `0` to
absent. -/
def mkArrivalRec (t : Int) (tripId : String) (u : StopTimeUpdate) :
    ArrivalRec :=
  { time := t
    tripId := tripId
    delay := u.arrivalDelay.getD 0
    uncertainty := match u.arrivalUncertainty with
      | some 0 => none
      | x => x
    scheduleRelationship := u.scheduleRelationship }

/-- The per-update step of the collection loop in `getNextArrivals`
(gtfsService.ts lines 382-417): the update is pushed into the
per-route map iff its stop matches, arrival time / trip id / route id
are set (JS-truthy), and `now < t < now + 7200`. -/
def processStopTimeUpdate (stopId : String) (now : Int)
    (tripId? routeId? : Option String)
    (acc : List (String × List ArrivalRec)) (u : StopTimeUpdate) :
    List (String × List ArrivalRec) :=
  match u.arrivalTime, tripId?, routeId? with
  | some t, some tripId, some routeId =>
    if u.stopId = some stopId ∧ t ≠ 0 ∧ tripId ≠ "" ∧ routeId ≠ ""
        ∧ now < t ∧ t < now + 7200 then
      mapPush routeId (mkArrivalRec t tripId u) acc
    else acc
  | _, _, _ => acc

/-- `if (routeFilter && routeId !== routeFilter) return;`
(gtfsService.ts line 374). -/
def routeFilterSkips (routeFilter : Option String)
    (routeId? : Option String) : Bool :=
  match routeFilter with
  | some rf => rf != "" && routeId? != some rf
  | none => false

/-- The per-entity step of the collection loop in `getNextArrivals`. -/
def processEntity (stopId : String) (routeFilter : Option String)
    (now : Int) (acc : List (String × List ArrivalRec)) (e : FeedEntity) :
    List (String × List ArrivalRec) :=
  match e.tripUpdate with
  | none => acc
  | some tu =>
    if routeFilterSkips routeFilter tu.routeId then acc
    else tu.stopTimeUpdates.foldl
      (processStopTimeUpdate stopId now tu.tripId tu.routeId) acc

/-- The collection phase of `getNextArrivals`: the per-route `arrivals`
map after the feed loop. -/
def collectArrivals (stopId : String) (routeFilter : Option String)
    (now : Int) (feed : List FeedEntity) :
    List (String × List ArrivalRec) :=
  feed.foldl (processEntity stopId routeFilter now) []

/-- One entry of `BusArrival.arrivalTimes` (types/gtfs.ts). -/
structure ArrivalTimeInfo where
  time : Int
  headsign : String
  minutesUntilArrival : Int
  delaySeconds : Int
  isRealTime : Bool
  uncertainty : Option Int
  status : String
deriving Repr, DecidableEq

/-- `BusArrival` record from `types/gtfs.ts`. -/
structure BusArrival where
  stopId : String
  routeId : String
  routeShortName : String
  routeLongName : String
  routeColor : String
  routeTextColor : String
  tripHeadsign : String
  arrivalTimes : List ArrivalTimeInfo
deriving Repr, DecidableEq

/-- The per-arrival enrichment in `getNextArrivals`
(gtfsService.ts lines 447-465): headsign via the trip index,
`minutesUntilArrival = Math.floor((t - now) / 60)`, and status
classification. -/
def mkArrivalTimeInfo (trips : List (String × GTFSTrip)) (now : Int)
    (a : ArrivalRec) : ArrivalTimeInfo :=
  let headsign := match mapGet a.tripId trips with
    | some trip => trip.tripHeadsign
    | none => ""
  let minutes := (a.time - now).fdiv 60
  { time := a.time
    headsign := headsign
    minutesUntilArrival := minutes
    delaySeconds := a.delay
    isRealTime := a.scheduleRelationship != some "SCHEDULED"
    uncertainty := a.uncertainty
    status := getArrivalStatus minutes a.delay }

/-- The result-building phase of `getNextArrivals`
(gtfsService.ts lines 426-480): per route group, resolve the route in
the route index (dropping the group when absent), sort ascending by
time, truncate to `maxArrivals`, and build the `BusArrival`. -/
def buildBusArrivalsStep (routes : List (String × GTFSRoute))
    (trips : List (String × GTFSTrip)) (stopId : String) (now : Int)
    (maxArrivals : Nat) (results : List BusArrival)
    (g : String × List ArrivalRec) : List BusArrival :=
  match mapGet g.1 routes with
  | some route =>
    let sorted :=
      (g.2.mergeSort (fun a b => a.time ≤ b.time)).take maxArrivals
    let infos := sorted.map (mkArrivalTimeInfo trips now)
    let b : BusArrival :=
      { stopId := stopId
        routeId := g.1
        routeShortName := route.shortName
        routeLongName := route.longName
        routeColor := route.routeColor
        routeTextColor := route.routeTextColor
        tripHeadsign := ((infos.head?).map (fun i => i.headsign)).getD ""
        arrivalTimes := infos }
    results ++ [b]
  | none => results

@[simp] theorem buildBusArrivalsStep_none {routes trips stopId now
    maxArrivals results} {g : String × List ArrivalRec}
    (hg : mapGet g.1 routes = none) :
    buildBusArrivalsStep routes trips stopId now maxArrivals results g =
      results := by
  simp [buildBusArrivalsStep, hg]

def buildBusArrivals (routes : List (String × GTFSRoute))
    (trips : List (String × GTFSTrip)) (stopId : String) (now : Int)
    (maxArrivals : Nat) (groups : List (String × List ArrivalRec)) :
    List BusArrival :=
  groups.foldl (buildBusArrivalsStep routes trips stopId now maxArrivals) []

/-- `GTFSService.getNextArrivals` (gtfsService.ts lines 326-483) as a
function of the static indexes, the query, the current time and the
decoded feed. -/
def getNextArrivals (routes : List (String × GTFSRoute))
    (trips : List (String × GTFSTrip)) (stopId : String)
    (routeFilter : Option String) (now : Int) (maxArrivals : Nat)
    (feed : List FeedEntity) : List BusArrival :=
  buildBusArrivals routes trips stopId now maxArrivals
    (collectArrivals stopId routeFilter now feed)

/-- `timeStr.split(":")` over the string's character list. -/
def splitOnColon : List Char → List (List Char)
  | [] => [[]]
  | c :: cs =>
    let rest := splitOnColon cs
    if c = ':' then [] :: rest
    else match rest with
      | r :: rs => (c :: r) :: rs
      | [] => [[c]]

/-- JS `Number(...)` on the segments `split(":")` produces: an
all-digit segment evaluates to its decimal value, the empty segment to
`0` (JS `Number("") === 0`), any other segment to `none` (JS `NaN`;
`NaN` fails every comparison downstream exactly as `none` does). -/
def jsNumber? (l : List Char) : Option Nat :=
  if l = [] then some 0
  else l.foldl (fun acc? c => match acc? with
    | some acc =>
      if ('0').toNat ≤ c.toNat ∧ c.toNat ≤ ('9').toNat then
        some (acc * 10 + (c.toNat - ('0').toNat))
      else none
    | none => none) (some 0)

/-- The body of `parseGtfsTime` after
`const [hours, minutes, seconds] = timeStr.split(":").map(Number)`:
the destructuring takes the first three segments (extra segments are
ignored); if any of the three is missing or `NaN` the resulting date is
invalid (`NaN`), modelled as `none`. -/
def parseTimeFields (dayStart : Int) : List (Option Nat) → Option Int
  | some hours :: some minutes :: some seconds :: _ =>
    if 24 ≤ hours then
      some (dayStart + 86400 + ((hours : Int) - 24) * 3600
        + (minutes : Int) * 60 + (seconds : Int))
    else
      some (dayStart + (hours : Int) * 3600
        + (minutes : Int) * 60 + (seconds : Int))
  | _ => none

/-- `GTFSService.parseGtfsTime` (gtfsService.ts lines 499-514), as an
offset from `dayStart`, the epoch second of today's local midnight
(the model assumes a fixed UTC offset, so "add one day" is `+ 86400`). -/
def parseGtfsTime? (dayStart : Int) (timeStr : String) : Option Int :=
  parseTimeFields dayStart ((splitOnColon timeStr.toList).map jsNumber?)

/-- The record pushed into the per-route `departures` map
(gtfsService.ts lines 551-558). -/
structure DepRec where
  time : Int
  tripId : String
deriving Repr, DecidableEq

/-- `if (routeFilter && trip.routeId !== routeFilter) continue;`
(gtfsService.ts line 541). -/
def routeFilterSkipsTrip (routeFilter : Option String)
    (routeId : String) : Bool :=
  match routeFilter with
  | some rf => rf != "" && routeId != rf
  | none => false

/-- The per-trip step of the collection loop in
`getScheduledDepartures` (gtfsService.ts lines 536-559): resolve the
trip, apply the route filter, take the first stop-time matching the
requested stop, convert its departure time, and keep it iff
`now < t < now + 86400`. -/
def processTripDepartures (trips : List (String × GTFSTrip))
    (stopId : String) (routeFilter : Option String) (now dayStart : Int)
    (acc : List (String × List DepRec))
    (entry : String × List GTFSStopTime) : List (String × List DepRec) :=
  match mapGet entry.1 trips with
  | none => acc
  | some trip =>
    if routeFilterSkipsTrip routeFilter trip.routeId then acc
    else
      match entry.2.find? (fun st => st.stopId == stopId) with
      | none => acc
      | some st =>
        match parseGtfsTime? dayStart st.departureTime with
        | none => acc
        | some t =>
          if now < t ∧ t < now + 86400 then
            mapPush trip.routeId ⟨t, entry.1⟩ acc
          else acc

/-- The collection phase of `getScheduledDepartures`: the per-route
`departures` map after the loop over every loaded trip's stop times. -/
def collectDepartures (stopTimes : List (String × List GTFSStopTime))
    (trips : List (String × GTFSTrip)) (stopId : String)
    (routeFilter : Option String) (now dayStart : Int) :
    List (String × List DepRec) :=
  stopTimes.foldl
    (processTripDepartures trips stopId routeFilter now dayStart) []

/-- One step of the deduplication loop of `getScheduledDepartures`:
`if (!uniqueDepartures.has(departure.time)) uniqueDepartures.set(...)`. -/
def dedupStep (acc : List DepRec) (d : DepRec) : List DepRec :=
  if acc.any (fun e => e.time == d.time) then acc else acc ++ [d]

/-- The deduplication step of `getScheduledDepartures`
(gtfsService.ts lines 577-585): a `Map` keyed by the exact departure
timestamp keeps only the first record encountered per timestamp; the
surviving records stay in first-encounter order. -/
def dedupByTime (l : List DepRec) : List DepRec :=
  l.foldl dedupStep []

/-- One entry of `BusDeparture.departureTimes`. -/
structure DepartureTimeInfo where
  time : Int
  headsign : String
  minutesUntilDeparture : Int
  isScheduled : Bool
  status : String
deriving Repr, DecidableEq

/-- `BusDeparture` record (built at gtfsService.ts lines 620-629). -/
structure BusDeparture where
  stopId : String
  routeId : String
  routeShortName : String
  routeLongName : String
  routeColor : String
  routeTextColor : String
  tripHeadsign : String
  departureTimes : List DepartureTimeInfo
deriving Repr, DecidableEq

/-- The per-departure enrichment (gtfsService.ts lines 603-618). -/
def mkDepartureTimeInfo (trips : List (String × GTFSTrip)) (now : Int)
    (d : DepRec) : DepartureTimeInfo :=
  let headsign := match mapGet d.tripId trips with
    | some trip => trip.tripHeadsign
    | none => ""
  let minutes := (d.time - now).fdiv 60
  { time := d.time
    headsign := headsign
    minutesUntilDeparture := minutes
    isScheduled := true
    status := getDepartureStatus minutes }

/-- The result-building phase of `getScheduledDepartures`
(gtfsService.ts lines 564-631): per route group, resolve the route
(dropping the group when absent), deduplicate by exact timestamp, sort
ascending by time, truncate to `maxDepartures`, and build the
`BusDeparture`. -/
def buildBusDeparturesStep (routes : List (String × GTFSRoute))
    (trips : List (String × GTFSTrip)) (stopId : String) (now : Int)
    (maxDepartures : Nat) (results : List BusDeparture)
    (g : String × List DepRec) : List BusDeparture :=
  match mapGet g.1 routes with
  | some route =>
    let uniqueDepartures := dedupByTime g.2
    let sorted :=
      (uniqueDepartures.mergeSort (fun a b => a.time ≤ b.time)).take
        maxDepartures
    let infos := sorted.map (mkDepartureTimeInfo trips now)
    let b : BusDeparture :=
      { stopId := stopId
        routeId := g.1
        routeShortName := route.shortName
        routeLongName := route.longName
        routeColor := route.routeColor
        routeTextColor := route.routeTextColor
        tripHeadsign := ((infos.head?).map (fun i => i.headsign)).getD ""
        departureTimes := infos }
    results ++ [b]
  | none => results

/-- `GTFSService.getScheduledDepartures` (gtfsService.ts lines
516-634) as a function of the static indexes, the query, the current
time, today's local midnight and the bound. -/
def getScheduledDepartures (routes : List (String × GTFSRoute))
    (trips : List (String × GTFSTrip))
    (stopTimes : List (String × List GTFSStopTime)) (stopId : String)
    (routeFilter : Option String) (now dayStart : Int)
    (maxDepartures : Nat) : List BusDeparture :=
  (collectDepartures stopTimes trips stopId routeFilter now dayStart).foldl
    (buildBusDeparturesStep routes trips stopId now maxDepartures) []

/-- C2: the arrival status classification evaluates its rules in the
fixed order `minutesUntil ≤ 1` → "Arriving", `minutesUntil ≤ 2` → "Due"
(even when the delay exceeds 300 s), `delaySeconds > 300` → "Delayed",
`delaySeconds < -60` → "Early", otherwise `"{minutesUntil} min"`;
including the documented boundary instances. -/
theorem getArrivalStatus_rule_order (m d : Int) :
    (m ≤ 1 → getArrivalStatus m d = "Arriving")
    ∧ (¬ m ≤ 1 → m ≤ 2 → getArrivalStatus m d = "Due")
    ∧ (¬ m ≤ 1 → ¬ m ≤ 2 → 300 < d → getArrivalStatus m d = "Delayed")
    ∧ (¬ m ≤ 1 → ¬ m ≤ 2 → ¬ 300 < d → d < -60 →
        getArrivalStatus m d = "Early")
    ∧ (¬ m ≤ 1 → ¬ m ≤ 2 → ¬ 300 < d → ¬ d < -60 →
        getArrivalStatus m d = toString m ++ " min")
    ∧ getArrivalStatus 1 d = "Arriving"
    ∧ getArrivalStatus 2 d = "Due"
    ∧ getArrivalStatus 2 400 = "Due"
    ∧ getArrivalStatus 10 310 = "Delayed"
    ∧ getArrivalStatus 10 (-90) = "Early"
    ∧ getArrivalStatus 10 0 = "10 min" := by
  refine ⟨?_, ?_, ?_, ?_, ?_, ?_, ?_, by decide, by decide, by decide, by decide⟩
  · intro h1; simp [getArrivalStatus, h1]
  · intro h1 h2; simp [getArrivalStatus, h1, h2]
  · intro h1 h2 h3; simp [getArrivalStatus, h1, h2, h3]
  · intro h1 h2 h3 h4; simp [getArrivalStatus, h1, h2, h3, h4]
  · intro h1 h2 h3 h4; simp [getArrivalStatus, h1, h2, h3, h4]
  · simp [getArrivalStatus]
  · norm_num [getArrivalStatus]

/-- C8: `getOrCreateRoute` never fails; it returns an existing route
unchanged, otherwise synthesizes a route whose short name is the first
"-"-segment of the id (the id itself when that segment is empty), whose
long name is the id, with default colors, stores it, and a second call
with the same id returns that same route. -/
theorem getOrCreateRoute_spec (routes : List (String × GTFSRoute))
    (routeId : String) :
    (∀ r, mapGet routeId routes = some r →
      getOrCreateRoute routes routeId = (r, routes))
    ∧ (mapGet routeId routes = none →
      getOrCreateRoute routes routeId =
        (⟨routeId,
          if (routeId.splitOn "-").headD "" = "" then routeId
          else (routeId.splitOn "-").headD "",
          routeId, "000000", "FFFFFF"⟩,
         routes ++ [(routeId,
           ⟨routeId,
            if (routeId.splitOn "-").headD "" = "" then routeId
            else (routeId.splitOn "-").headD "",
            routeId, "000000", "FFFFFF"⟩)]))
    ∧ (getOrCreateRoute (getOrCreateRoute routes routeId).2 routeId).1 =
        (getOrCreateRoute routes routeId).1 := by
  refine ⟨?_, ?_, ?_⟩
  · intro r hr
    simp [getOrCreateRoute, hr]
  · intro hr
    have : ¬ (mapGet routeId routes).isSome := by simp [hr]
    simp [getOrCreateRoute, hr, synthesizedRoute, mapSet, this]
  · cases hget : mapGet routeId routes with
    | some r => simp [getOrCreateRoute, hget]
    | none =>
      have hnew := mapGet_mapSet_self routeId (synthesizedRoute routeId) routes
      simp [getOrCreateRoute, hget, hnew]

/-- C1: a stop-time update that matches the requested stop and has a
set arrival time, trip id and route id is pushed into the arrivals map
iff `now < t < now + 7200`; in particular `t = now + 7199` is kept and
`t = now + 7201`, `t = now`, `t = now - 1` are dropped. -/
theorem getNextArrivals_time_window (stopId tripId routeId : String)
    (now t : Int) (delay uncertainty : Option Int) (sr : Option String)
    (acc : List (String × List ArrivalRec))
    (htrip : tripId ≠ "") (hroute : routeId ≠ "") (ht : t ≠ 0) :
    (processStopTimeUpdate stopId now (some tripId) (some routeId) acc
        ⟨some stopId, some t, delay, uncertainty, sr⟩ =
      if now < t ∧ t < now + 7200 then
        mapPush routeId
          (mkArrivalRec t tripId ⟨some stopId, some t, delay, uncertainty, sr⟩)
          acc
      else acc)
    ∧ (t = now + 7199 → now < t ∧ t < now + 7200)
    ∧ (t = now + 7201 → ¬(now < t ∧ t < now + 7200))
    ∧ (t = now → ¬(now < t ∧ t < now + 7200))
    ∧ (t = now - 1 → ¬(now < t ∧ t < now + 7200)) := by
  refine ⟨?_, by omega, by omega, by omega, by omega⟩
  simp only [processStopTimeUpdate]
  by_cases hw : now < t ∧ t < now + 7200
  · rw [if_pos (by exact ⟨by trivial, ht, htrip, hroute, hw.1, hw.2⟩),
      if_pos hw]
  · rw [if_neg ?_, if_neg hw]
    rintro ⟨-, -, -, -, h1, h2⟩
    exact hw ⟨h1, h2⟩

/-- Witness for C1 at a concrete input: `now = 1000`,
`t = 8199 = now + 7199` is inside the window and is pushed. -/
theorem getNextArrivals_time_window_witness :
    processStopTimeUpdate "S" 1000 (some "T1") (some "R1") []
        ⟨some "S", some 8199, none, none, none⟩ =
      [("R1", [⟨8199, "T1", 0, none, none⟩])] := by
  have h := (getNextArrivals_time_window "S" "T1" "R1" 1000 8199 none none
    none [] (by decide) (by decide) (by decide)).1
  rw [h]
  decide

theorem buildBusArrivals_all_known (routes : List (String × GTFSRoute))
    (trips : List (String × GTFSTrip)) (stopId : String) (now : Int)
    (maxArrivals : Nat) :
    ∀ (groups : List (String × List ArrivalRec)) (init : List BusArrival),
      init.all (fun b => (mapGet b.routeId routes).isSome) = true →
      (groups.foldl
        (buildBusArrivalsStep routes trips stopId now maxArrivals) init).all
          (fun b => (mapGet b.routeId routes).isSome) = true
  | [], init, hinit => hinit
  | g :: gs, init, hinit => by
    rw [List.foldl_cons]
    cases hg : mapGet g.1 routes with
    | some route =>
      refine buildBusArrivals_all_known routes trips stopId now maxArrivals
        gs _ ?_
      simp only [buildBusArrivalsStep, hg, List.all_append,
        Bool.and_eq_true]
      exact ⟨hinit, by simp [hg]⟩
    | none =>
      refine buildBusArrivals_all_known routes trips stopId now maxArrivals
        gs _ ?_
      rw [buildBusArrivalsStep_none hg]
      exact hinit

/-- C7: every `BusArrival` returned by `getNextArrivals` has a route id
present in the route index; a route group whose route id is unknown is
dropped (no `BusArrival` for it) and since the function is total no
error is raised. -/
theorem getNextArrivals_known_routes_only (routes : List (String × GTFSRoute))
    (trips : List (String × GTFSTrip)) (stopId : String)
    (routeFilter : Option String) (now : Int) (maxArrivals : Nat)
    (feed : List FeedEntity) (rid : String) :
    ((getNextArrivals routes trips stopId routeFilter now maxArrivals
        feed).all (fun b => (mapGet b.routeId routes).isSome) = true)
    ∧ (mapGet rid routes = none →
      (getNextArrivals routes trips stopId routeFilter now maxArrivals
        feed).all (fun b => b.routeId != rid) = true) := by
  have hall : (getNextArrivals routes trips stopId routeFilter now maxArrivals
      feed).all (fun b => (mapGet b.routeId routes).isSome) = true := by
    unfold getNextArrivals buildBusArrivals
    exact buildBusArrivals_all_known routes trips stopId now maxArrivals
      (collectArrivals stopId routeFilter now feed) [] rfl
  refine ⟨hall, fun hrid => ?_⟩
  rw [List.all_eq_true] at hall ⊢
  intro b hb
  have hsome := hall b hb
  simp only [bne_iff_ne, ne_eq]
  intro hEq
  rw [hEq, hrid] at hsome
  simp at hsome

/-- Witness for C7's conditional part: with an empty route index every
route id is unknown, and a feed containing an in-window update for stop
"S" on route "R1" produces no `BusArrival`. -/
theorem getNextArrivals_known_routes_only_witness :
    mapGet "R1" ([] : List (String × GTFSRoute)) = none ∧
    (getNextArrivals [] [] "S" none 1000 5
      [⟨some ⟨some "T1", some "R1",
        [⟨some "S", some 1300, none, none, none⟩]⟩⟩]).all
      (fun b => b.routeId != "R1") = true :=
  ⟨rfl,
    (getNextArrivals_known_routes_only [] [] "S" none 1000 5
      [⟨some ⟨some "T1", some "R1",
        [⟨some "S", some 1300, none, none, none⟩]⟩⟩] "R1").2 rfl⟩

/-- C4: `getScheduledDepartures` converts a candidate stop-time's
`"HH:MM:SS"` departure time to a timestamp anchored at today's local
midnight, rolling to the next day (subtract 24 hours, add one day) when
the hours field is ≥ 24, and keeps the departure iff
`now < t < now + 86400`. -/
theorem getScheduledDepartures_conversion_window
    (trips : List (String × GTFSTrip)) (stopId : String)
    (routeFilter : Option String) (now dayStart : Int)
    (acc : List (String × List DepRec)) (tripId : String)
    (sts : List GTFSStopTime) (trip : GTFSTrip) (st : GTFSStopTime)
    (hrs minutes secs : Nat) (tail : List (Option Nat)) (t : Int)
    (htrip : mapGet tripId trips = some trip)
    (hskip : routeFilterSkipsTrip routeFilter trip.routeId = false)
    (hfind : sts.find? (fun x => x.stopId == stopId) = some st)
    (hsplit : (splitOnColon st.departureTime.toList).map jsNumber?
        = some hrs :: some minutes :: some secs :: tail)
    (ht : t = if 24 ≤ hrs then
        dayStart + 86400 + ((hrs : Int) - 24) * 3600
          + (minutes : Int) * 60 + (secs : Int)
      else dayStart + (hrs : Int) * 3600
          + (minutes : Int) * 60 + (secs : Int)) :
    parseGtfsTime? dayStart st.departureTime = some t
    ∧ processTripDepartures trips stopId routeFilter now dayStart acc
        (tripId, sts) =
      (if now < t ∧ t < now + 86400 then
        mapPush trip.routeId ⟨t, tripId⟩ acc
      else acc) := by
  have hparse : parseGtfsTime? dayStart st.departureTime = some t := by
    unfold parseGtfsTime?
    rw [hsplit]
    subst ht
    by_cases hh : 24 ≤ hrs
    · simp only [parseTimeFields, if_pos hh]
    · simp only [parseTimeFields, if_neg hh]
  refine ⟨hparse, ?_⟩
  simp only [processTripDepartures, htrip, hskip, hfind, hparse,
    Bool.false_eq_true, if_false]

/-- Witness for C4 at a concrete input: departure time `"25:15:00"`
rolls past midnight to `dayStart + 86400 + 4500 = 90900`, and with
`now = 90000` it is inside the 24-hour window and kept. -/
theorem getScheduledDepartures_conversion_window_witness :
    parseGtfsTime? 0 "25:15:00" = some 90900
    ∧ processTripDepartures [("T1", ⟨"T1", "R1", "Downtown"⟩)] "S100" none
        90000 0 [] ("T1", [⟨"T1", "10:00:00", "25:15:00", "S100", 1⟩]) =
      [("R1", [⟨90900, "T1"⟩])] := by
  have h := getScheduledDepartures_conversion_window
    [("T1", ⟨"T1", "R1", "Downtown"⟩)] "S100" none 90000 0 []
    "T1" [⟨"T1", "10:00:00", "25:15:00", "S100", 1⟩]
    ⟨"T1", "R1", "Downtown"⟩ ⟨"T1", "10:00:00", "25:15:00", "S100", 1⟩
    25 15 0 [] 90900
    (by decide) (by decide) (by decide) (by decide) (by decide)
  refine ⟨h.1, ?_⟩
  rw [h.2]
  decide

theorem dedupStep_any (acc : List DepRec) (d : DepRec) (t : Int) :
    (dedupStep acc d).any (fun e => e.time == t)
      = (acc.any (fun e => e.time == t) || (d.time == t)) := by
  unfold dedupStep
  by_cases h : acc.any (fun e => e.time == d.time) = true
  · rw [if_pos h]
    by_cases hd : d.time = t
    · subst hd
      simp [h]
    · have hfalse : (d.time == t) = false := by simp [hd]
      rw [hfalse, Bool.or_false]
  · rw [if_neg h]
    simp

theorem dedup_foldl_any (t : Int) :
    ∀ (l acc : List DepRec),
      (l.foldl dedupStep acc).any (fun e => e.time == t)
        = (acc.any (fun e => e.time == t) || l.any (fun e => e.time == t))
  | [], acc => by simp
  | d :: l, acc => by
    rw [List.foldl_cons, dedup_foldl_any t l (dedupStep acc d),
      dedupStep_any, List.any_cons]
    exact Bool.or_assoc _ _ _

theorem dedup_foldl_find? (t : Int) :
    ∀ (l acc : List DepRec),
      (l.foldl dedupStep acc).find? (fun e => e.time == t)
        = (acc.find? (fun e => e.time == t)).or
            (l.find? (fun e => e.time == t))
  | [], acc => by simp
  | d :: l, acc => by
    rw [List.foldl_cons, dedup_foldl_find? t l (dedupStep acc d)]
    unfold dedupStep
    by_cases h : acc.any (fun e => e.time == d.time) = true
    · rw [if_pos h]
      by_cases hd : d.time = t
      · have hsome : (acc.find? (fun e => e.time == t)).isSome := by
          rw [List.find?_isSome]
          rcases List.any_eq_true.mp h with ⟨e, he, hbeq⟩
          exact ⟨e, he, by rw [beq_iff_eq] at hbeq ⊢; rw [hbeq, hd]⟩
        rcases Option.isSome_iff_exists.mp hsome with ⟨x, hx⟩
        rw [hx]
        rfl
      · have hfalse : (d.time == t) = false := by simp [hd]
        rw [List.find?_cons, hfalse]
    · rw [if_neg h, List.find?_append, Option.or_assoc]
      congr 1
      cases hd : (d.time == t)
      · simp [List.find?_cons, hd]
      · simp [List.find?_cons, hd]

theorem dedupStep_pairwise (acc : List DepRec) (d : DepRec)
    (h : acc.Pairwise (fun a b => a.time ≠ b.time)) :
    (dedupStep acc d).Pairwise (fun a b => a.time ≠ b.time) := by
  unfold dedupStep
  by_cases hany : acc.any (fun e => e.time == d.time) = true
  · rw [if_pos hany]; exact h
  · rw [if_neg hany, List.pairwise_append]
    refine ⟨h, List.pairwise_singleton _ _, ?_⟩
    intro a ha b hb
    simp only [List.mem_singleton] at hb
    subst hb
    intro hEq
    exact hany (List.any_eq_true.mpr ⟨a, ha, by rw [beq_iff_eq]; exact hEq⟩)

theorem dedup_foldl_pairwise :
    ∀ (l acc : List DepRec),
      acc.Pairwise (fun a b => a.time ≠ b.time) →
      (l.foldl dedupStep acc).Pairwise (fun a b => a.time ≠ b.time)
  | [], _, h => h
  | d :: l, acc, h => by
    rw [List.foldl_cons]
    exact dedup_foldl_pairwise l (dedupStep acc d) (dedupStep_pairwise acc d h)

theorem countP_time_le_one_of_pairwise (t : Int) :
    ∀ l : List DepRec, l.Pairwise (fun a b => a.time ≠ b.time) →
      l.countP (fun e => e.time == t) ≤ 1
  | [], _ => by simp
  | d :: l, h => by
    rw [List.countP_cons]
    rcases List.pairwise_cons.mp h with ⟨hd, hl⟩
    by_cases hdt : d.time = t
    · have hzero : l.countP (fun e => e.time == t) = 0 := by
        rw [List.countP_eq_zero]
        intro e he hbeq
        rw [beq_iff_eq] at hbeq
        exact hd e he (by rw [hdt, hbeq])
      simp [hzero, hdt]
    · have hfalse : (d.time == t) = false := by simp [hdt]
      have := countP_time_le_one_of_pairwise t l hl
      simp [hfalse]
      omega

/-- The `time` field survives departure enrichment unchanged. -/
theorem mkDepartureTimeInfo_time (trips : List (String × GTFSTrip))
    (now : Int) (d : DepRec) :
    (mkDepartureTimeInfo trips now d).time = d.time := rfl

theorem buildBusDepartures_pairwise (routes : List (String × GTFSRoute))
    (trips : List (String × GTFSTrip)) (stopId : String) (now : Int)
    (maxDepartures : Nat) :
    ∀ (groups : List (String × List DepRec)) (init : List BusDeparture),
      (∀ b ∈ init, b.departureTimes.Pairwise (fun i j => i.time ≠ j.time)) →
      ∀ b ∈ groups.foldl
          (buildBusDeparturesStep routes trips stopId now maxDepartures)
          init,
        b.departureTimes.Pairwise (fun i j => i.time ≠ j.time)
  | [], _, hinit => hinit
  | g :: gs, init, hinit => by
    rw [List.foldl_cons]
    refine buildBusDepartures_pairwise routes trips stopId now maxDepartures
      gs _ ?_
    intro b hb
    unfold buildBusDeparturesStep at hb
    cases hg : mapGet g.1 routes with
    | some route =>
      rw [hg] at hb
      simp only [List.mem_append, List.mem_singleton] at hb
      rcases hb with h | h
      · exact hinit b h
      · subst h
        simp only []
        rw [List.pairwise_map]
        have huniq : (dedupByTime g.2).Pairwise
            (fun a b => a.time ≠ b.time) :=
          dedup_foldl_pairwise g.2 [] (List.Pairwise.nil)
        have hperm := List.mergeSort_perm (dedupByTime g.2)
          (fun a b => a.time ≤ b.time)
        have hsortedPair :
            ((dedupByTime g.2).mergeSort
              (fun a b => a.time ≤ b.time)).Pairwise
              (fun a b => a.time ≠ b.time) :=
          (hperm.pairwise_iff (fun hxy => hxy.symm)).mpr huniq
        exact List.Pairwise.sublist (List.take_sublist _ _) hsortedPair
    | none =>
      rw [hg] at hb
      exact hinit b hb

/-- C3: within each route group of `getScheduledDepartures`, departures
are deduplicated by exact converted timestamp before sorting and
truncating: exactly one record per present timestamp survives the
dedup, the survivor is the first record encountered, and every emitted
`BusDeparture` carries pairwise-distinct departure timestamps. -/
theorem getScheduledDepartures_dedup_by_time (l : List DepRec) (t : Int)
    (routes : List (String × GTFSRoute)) (trips : List (String × GTFSTrip))
    (stopTimes : List (String × List GTFSStopTime)) (stopId : String)
    (routeFilter : Option String) (now dayStart : Int)
    (maxDepartures : Nat) :
    ((dedupByTime l).countP (fun e => e.time == t)
      = if l.any (fun e => e.time == t) then 1 else 0)
    ∧ ((dedupByTime l).find? (fun e => e.time == t)
      = l.find? (fun e => e.time == t))
    ∧ (∀ b ∈ getScheduledDepartures routes trips stopTimes stopId
          routeFilter now dayStart maxDepartures,
        b.departureTimes.Pairwise (fun i j => i.time ≠ j.time)) := by
  refine ⟨?_, ?_, ?_⟩
  · have hany : (dedupByTime l).any (fun e => e.time == t)
        = l.any (fun e => e.time == t) := by
      rw [dedupByTime, dedup_foldl_any]
      simp
    have hle := countP_time_le_one_of_pairwise t (dedupByTime l)
      (dedup_foldl_pairwise l [] List.Pairwise.nil)
    by_cases h : l.any (fun e => e.time == t) = true
    · rw [if_pos h]
      have hpos : 0 < (dedupByTime l).countP (fun e => e.time == t) := by
        rw [List.countP_pos_iff]
        rcases List.any_eq_true.mp (hany.trans h) with ⟨e, he, hbeq⟩
        exact ⟨e, he, hbeq⟩
      omega
    · rw [if_neg h]
      rw [List.countP_eq_zero]
      intro e he hbeq
      rw [Bool.not_eq_true] at h
      have : (dedupByTime l).any (fun e => e.time == t) = false :=
        hany.trans h
      rw [List.any_eq_false] at this
      exact this e he hbeq
  · rw [dedupByTime, dedup_foldl_find?]
    simp
  · exact buildBusDepartures_pairwise routes trips stopId now maxDepartures
      _ [] (by intro b hb; cases hb)

/-- `TripDetails` record from `types/gtfs.ts` (the fields
`getTripDetails` populates). -/
structure TripDetails where
  trip : GTFSTrip
  route : GTFSRoute
  stopTimes : List GTFSStopTime
deriving Repr, DecidableEq

/-- `GTFSService.getTripDetails` (gtfsService.ts lines 853-867):
resolve the trip, then the trip's route (`undefined` when either is
missing), and pair them with the trip's stop times (`|| []`). -/
def getTripDetails (trips : List (String × GTFSTrip))
    (routes : List (String × GTFSRoute))
    (stopTimes : List (String × List GTFSStopTime)) (tripId : String) :
    Option TripDetails :=
  match mapGet tripId trips with
  | none => none
  | some trip =>
    match mapGet trip.routeId routes with
    | none => none
    | some route => some ⟨trip, route, (mapGet tripId stopTimes).getD []⟩

/-- C9: when the trip is present but its `routeId` dangles (no entry in
the route index), `getTripDetails` returns `none` without throwing,
even though the trip and its stop times are loaded. -/
theorem getTripDetails_dangling_route (trips : List (String × GTFSTrip))
    (routes : List (String × GTFSRoute))
    (stopTimes : List (String × List GTFSStopTime)) (tripId : String)
    (trip : GTFSTrip)
    (htrip : mapGet tripId trips = some trip)
    (hroute : mapGet trip.routeId routes = none) :
    getTripDetails trips routes stopTimes tripId = none := by
  simp [getTripDetails, htrip, hroute]

/-- Witness for C9: trip "T1" is loaded with stop times, but its route
"R9" has no entry, so the details are absent. -/
theorem getTripDetails_dangling_route_witness :
    getTripDetails [("T1", ⟨"T1", "R9", "Downtown"⟩)] []
      [("T1", [⟨"T1", "08:00:00", "08:00:00", "S1", 1⟩])] "T1" = none :=
  getTripDetails_dangling_route _ _ _ "T1" ⟨"T1", "R9", "Downtown"⟩
    (by decide) (by decide)

/-- All records across the groups of a per-route map, in group order. -/
def recsOf : List (String × List DepRec) → List DepRec
  | [] => []
  | g :: gs => g.2 ++ recsOf gs

/-- How many collected departure records belong to trip `tid`. -/
def countTripRecs (tid : String) (m : List (String × List DepRec)) : Nat :=
  (recsOf m).countP (fun d => d.tripId == tid)

theorem recsOf_append : ∀ (a b : List (String × List DepRec)),
    recsOf (a ++ b) = recsOf a ++ recsOf b
  | [], b => rfl
  | g :: gs, b => by
    rw [List.cons_append]
    show g.2 ++ recsOf (gs ++ b) = (g.2 ++ recsOf gs) ++ recsOf b
    rw [recsOf_append gs b, List.append_assoc]

theorem mapGet_none_iff {β : Type} (k : String) :
    ∀ m : List (String × β), mapGet k m = none ↔ ∀ p ∈ m, p.1 ≠ k
  | [] => by simp [mapGet_nil]
  | q :: ps => by
    rw [mapGet_cons]
    by_cases hq : q.1 = k
    · simp [hq]
    · rw [if_neg hq, mapGet_none_iff k ps]
      constructor
      · intro h p hp
        rcases List.mem_cons.mp hp with rfl | hmem
        · exact hq
        · exact h p hmem
      · intro h p hp
        exact h p (List.mem_cons_of_mem q hp)

theorem map_overwrite_of_no_key {β : Type} (k : String) (w : String × β) :
    ∀ m : List (String × β), (∀ p ∈ m, p.1 ≠ k) →
      m.map (fun p => if p.1 = k then w else p) = m
  | [], _ => rfl
  | q :: ps, h => by
    rw [List.map_cons, if_neg (h q (List.mem_cons_self q ps)),
      map_overwrite_of_no_key k w ps
        (fun p hp => h p (List.mem_cons_of_mem q hp))]

theorem keys_map_overwrite {β : Type} (k : String) (v : β) :
    ∀ m : List (String × β),
      (m.map (fun p => if p.1 = k then (k, v) else p)).map Prod.fst
        = m.map Prod.fst
  | [] => rfl
  | q :: ps => by
    rw [List.map_cons, List.map_cons, List.map_cons,
      keys_map_overwrite k v ps]
    by_cases hq : q.1 = k
    · rw [if_pos hq, hq]
    · rw [if_neg hq]

theorem mapPush_keys (k : String) (v : DepRec)
    (m : List (String × List DepRec)) :
    (mapPush k v m).map Prod.fst =
      if (mapGet k m).isSome then m.map Prod.fst
      else m.map Prod.fst ++ [k] := by
  unfold mapPush
  cases hget : mapGet k m with
  | some l =>
    simp only [mapSet]
    rw [if_pos (by rw [hget]; rfl)]
    simp only [hget, Option.isSome_some, if_true]
    exact keys_map_overwrite k (l ++ [v]) m
  | none =>
    simp only [hget, Option.isSome_none, Bool.false_eq_true, if_false]
    rw [List.map_append]
    rfl

theorem mapPush_keys_nodup (k : String) (v : DepRec)
    (m : List (String × List DepRec)) (h : (m.map Prod.fst).Nodup) :
    ((mapPush k v m).map Prod.fst).Nodup := by
  rw [mapPush_keys]
  cases hget : mapGet k m with
  | some l => simpa [hget] using h
  | none =>
    simp only [hget, Option.isSome_none, Bool.false_eq_true, if_false]
    rw [List.nodup_append]
    refine ⟨h, List.nodup_singleton k, ?_⟩
    intro a ha hb
    simp only [List.mem_singleton] at hb
    rcases List.mem_map.mp ha with ⟨p, hp, hpk⟩
    exact ((mapGet_none_iff k m).mp hget p hp) (by rw [hpk, hb])

theorem mapGet_some_sub (k : String) :
    ∀ (m : List (String × List DepRec)) (l : List DepRec),
      mapGet k m = some l → ∀ x ∈ l, x ∈ recsOf m
  | [], l, h => by simp [mapGet_nil] at h
  | q :: ps, l, h => by
    rw [mapGet_cons] at h
    by_cases hq : q.1 = k
    · rw [if_pos hq] at h
      cases h
      intro x hx
      exact List.mem_append_left _ hx
    · rw [if_neg hq] at h
      intro x hx
      exact List.mem_append_right _ (mapGet_some_sub k ps l h x hx)

theorem mem_recsOf_map_overwrite (k : String) (w : List DepRec) :
    ∀ (m : List (String × List DepRec)) (d : DepRec),
      d ∈ recsOf (m.map (fun p => if p.1 = k then (k, w) else p)) →
      d ∈ recsOf m ∨ d ∈ w
  | [], d, h => by cases h
  | q :: ps, d, h => by
    rw [List.map_cons] at h
    rcases List.mem_append.mp h with h1 | h1
    · by_cases hq : q.1 = k
      · rw [if_pos hq] at h1
        exact Or.inr h1
      · rw [if_neg hq] at h1
        exact Or.inl (List.mem_append_left _ h1)
    · rcases mem_recsOf_map_overwrite k w ps d h1 with h2 | h2
      · exact Or.inl (List.mem_append_right _ h2)
      · exact Or.inr h2

theorem mem_recsOf_mapPush (k : String) (v : DepRec)
    (m : List (String × List DepRec)) (d : DepRec)
    (h : d ∈ recsOf (mapPush k v m)) : d ∈ recsOf m ∨ d = v := by
  unfold mapPush at h
  cases hget : mapGet k m with
  | some l =>
    rw [hget] at h
    simp only [mapSet] at h
    rw [if_pos (by rw [hget]; rfl)] at h
    rcases mem_recsOf_map_overwrite k (l ++ [v]) m d h with h1 | h1
    · exact Or.inl h1
    · rcases List.mem_append.mp h1 with h2 | h2
      · exact Or.inl (mapGet_some_sub k m l hget d h2)
      · simp only [List.mem_singleton] at h2
        exact Or.inr h2
  | none =>
    rw [hget, recsOf_append] at h
    rcases List.mem_append.mp h with h1 | h1
    · exact Or.inl h1
    · simp only [recsOf, List.append_nil, List.mem_singleton] at h1
      exact Or.inr h1

theorem countP_recsOf_mapPush (p : DepRec → Bool) (k : String)
    (v : DepRec) :
    ∀ m : List (String × List DepRec), (m.map Prod.fst).Nodup →
      (recsOf (mapPush k v m)).countP p
        = (recsOf m).countP p + (if p v then 1 else 0)
  | [], _ => by
    simp only [mapPush, mapGet_nil, recsOf, List.nil_append]
    show (recsOf ([] ++ [(k, [v])])).countP p = _
    rw [recsOf_append]
    simp [recsOf, List.countP_cons]
  | q :: ps, hnd => by
    unfold mapPush
    cases hget : mapGet k (q :: ps) with
    | none =>
      rw [recsOf_append, List.countP_append]
      simp [recsOf, List.countP_cons]
    | some l =>
      simp only [mapSet]
      rw [if_pos (by rw [hget]; rfl), List.map_cons]
      rw [mapGet_cons] at hget
      rw [List.map_cons, List.nodup_cons] at hnd
      by_cases hq : q.1 = k
      · rw [if_pos hq] at hget ⊢
        cases hget
        have hps : ∀ r ∈ ps, r.1 ≠ k := by
          intro r hr hrk
          exact hnd.1 (by rw [hq, ← hrk]; exact List.mem_map.mpr ⟨r, hr, rfl⟩)
        rw [map_overwrite_of_no_key k (k, q.2 ++ [v]) ps hps]
        show (List.countP p ((q.2 ++ [v]) ++ recsOf ps)) = _
        simp only [List.countP_append, recsOf, List.countP_cons,
          List.countP_nil]
        omega
      · rw [if_neg hq] at hget ⊢
        have hrec := countP_recsOf_mapPush p k v ps hnd.2
        unfold mapPush at hrec
        rw [hget] at hrec
        simp only [mapSet] at hrec
        rw [if_pos (by rw [hget]; rfl)] at hrec
        show (List.countP p (q.2 ++ recsOf
          (ps.map (fun r => if r.1 = k then (k, l ++ [v]) else r)))) = _
        simp only [List.countP_append, recsOf] at hrec ⊢
        omega

theorem mapGet_of_mem_nodup {β : Type} :
    ∀ (m : List (String × β)) (p : String × β),
      (m.map Prod.fst).Nodup → p ∈ m → mapGet p.1 m = some p.2
  | [], p, _, hp => by cases hp
  | q :: ps, p, hnd, hp => by
    rw [List.map_cons, List.nodup_cons] at hnd
    rcases List.mem_cons.mp hp with rfl | hmem
    · rw [mapGet_cons, if_pos rfl]
    · rw [mapGet_cons]
      have hne : q.1 ≠ p.1 := by
        intro hEq
        exact hnd.1 (hEq ▸ List.mem_map.mpr ⟨p, hmem, rfl⟩)
      rw [if_neg hne]
      exact mapGet_of_mem_nodup ps p hnd.2 hmem

/-- Where a collected departure record comes from: the trip's stop-time
list in the index, its first entry matching the stop, and that entry's
parsed departure time. -/
def depRecOrigin (stopTimes : List (String × List GTFSStopTime))
    (stopId : String) (dayStart : Int) (d : DepRec) : Prop :=
  ∃ sts st, mapGet d.tripId stopTimes = some sts
    ∧ sts.find? (fun x => x.stopId == stopId) = some st
    ∧ parseGtfsTime? dayStart st.departureTime = some d.time

theorem processTripDepartures_count (trips : List (String × GTFSTrip))
    (stopId : String) (routeFilter : Option String) (now dayStart : Int)
    (acc : List (String × List DepRec)) (e : String × List GTFSStopTime)
    (tid : String) (hnd : (acc.map Prod.fst).Nodup) :
    countTripRecs tid
        (processTripDepartures trips stopId routeFilter now dayStart acc e)
      ≤ countTripRecs tid acc + (if e.1 = tid then 1 else 0)
    ∧ ((processTripDepartures trips stopId routeFilter now dayStart acc
        e).map Prod.fst).Nodup := by
  unfold processTripDepartures
  cases mapGet e.1 trips with
  | none => exact ⟨Nat.le_add_right _ _, hnd⟩
  | some trip =>
    dsimp only
    by_cases hskip : routeFilterSkipsTrip routeFilter trip.routeId = true
    · rw [if_pos hskip]
      exact ⟨Nat.le_add_right _ _, hnd⟩
    · rw [if_neg hskip]
      cases e.2.find? (fun st => st.stopId == stopId) with
      | none => exact ⟨Nat.le_add_right _ _, hnd⟩
      | some st =>
        dsimp only
        cases parseGtfsTime? dayStart st.departureTime with
        | none => exact ⟨Nat.le_add_right _ _, hnd⟩
        | some t =>
          dsimp only
          by_cases hw : now < t ∧ t < now + 86400
          · rw [if_pos hw]
            refine ⟨?_, mapPush_keys_nodup _ _ acc hnd⟩
            unfold countTripRecs
            rw [countP_recsOf_mapPush _ _ _ acc hnd]
            by_cases ht : e.1 = tid
            · simp [ht]
            · have hfalse : (((⟨t, e.1⟩ : DepRec)).tripId == tid) = false := by
                simp [ht]
              simp [hfalse, ht]
          · rw [if_neg hw]
            exact ⟨Nat.le_add_right _ _, hnd⟩

theorem collectDepartures_count_aux (trips : List (String × GTFSTrip))
    (stopId : String) (routeFilter : Option String) (now dayStart : Int)
    (tid : String) :
    ∀ (l : List (String × List GTFSStopTime))
      (acc : List (String × List DepRec)),
      (acc.map Prod.fst).Nodup → (l.map Prod.fst).Nodup →
      countTripRecs tid
        (l.foldl (processTripDepartures trips stopId routeFilter now
          dayStart) acc)
        ≤ countTripRecs tid acc + (if tid ∈ l.map Prod.fst then 1 else 0)
  | [], acc, _, _ => by simp
  | e :: l, acc, hacc, hl => by
    rw [List.foldl_cons]
    rw [List.map_cons, List.nodup_cons] at hl
    have hstep := processTripDepartures_count trips stopId routeFilter now
      dayStart acc e tid hacc
    have hrec := collectDepartures_count_aux trips stopId routeFilter now
      dayStart tid l
      (processTripDepartures trips stopId routeFilter now dayStart acc e)
      hstep.2 hl.2
    rw [List.map_cons]
    by_cases h1 : e.1 = tid
    · have h2 : tid ∉ l.map Prod.fst := h1 ▸ hl.1
      have hmem : tid ∈ e.1 :: l.map Prod.fst :=
        List.mem_cons.mpr (Or.inl h1.symm)
      rw [if_pos hmem]
      rw [if_pos h1] at hstep
      rw [if_neg h2] at hrec
      omega
    · have hiff : (tid ∈ e.1 :: l.map Prod.fst) ↔ tid ∈ l.map Prod.fst := by
        rw [List.mem_cons]
        constructor
        · rintro (rfl | h)
          · exact absurd rfl h1
          · exact h
        · exact Or.inr
      rw [if_neg h1] at hstep
      by_cases h3 : tid ∈ l.map Prod.fst
      · rw [if_pos (hiff.mpr h3)]
        rw [if_pos h3] at hrec
        omega
      · rw [if_neg (fun hc => h3 (hiff.mp hc))]
        rw [if_neg h3] at hrec
        omega

theorem processTripDepartures_origin
    (stopTimes : List (String × List GTFSStopTime))
    (trips : List (String × GTFSTrip)) (stopId : String)
    (routeFilter : Option String) (now dayStart : Int)
    (acc : List (String × List DepRec)) (e : String × List GTFSStopTime)
    (hself : mapGet e.1 stopTimes = some e.2)
    (hacc : ∀ d ∈ recsOf acc, depRecOrigin stopTimes stopId dayStart d) :
    ∀ d ∈ recsOf
        (processTripDepartures trips stopId routeFilter now dayStart acc e),
      depRecOrigin stopTimes stopId dayStart d := by
  unfold processTripDepartures
  cases mapGet e.1 trips with
  | none => exact hacc
  | some trip =>
    dsimp only
    by_cases hskip : routeFilterSkipsTrip routeFilter trip.routeId = true
    · rw [if_pos hskip]; exact hacc
    · rw [if_neg hskip]
      cases hfind : e.2.find? (fun st => st.stopId == stopId) with
      | none => exact hacc
      | some st =>
        dsimp only
        cases hparse : parseGtfsTime? dayStart st.departureTime with
        | none => exact hacc
        | some t =>
          dsimp only
          by_cases hw : now < t ∧ t < now + 86400
          · rw [if_pos hw]
            intro d hd
            rcases mem_recsOf_mapPush trip.routeId ⟨t, e.1⟩ acc d hd
              with h | rfl
            · exact hacc d h
            · exact ⟨e.2, st, hself, hfind, hparse⟩
          · rw [if_neg hw]; exact hacc

theorem collectDepartures_origin_aux
    (stopTimes : List (String × List GTFSStopTime))
    (trips : List (String × GTFSTrip)) (stopId : String)
    (routeFilter : Option String) (now dayStart : Int) :
    ∀ (l : List (String × List GTFSStopTime))
      (acc : List (String × List DepRec)),
      (∀ e ∈ l, mapGet e.1 stopTimes = some e.2) →
      (∀ d ∈ recsOf acc, depRecOrigin stopTimes stopId dayStart d) →
      ∀ d ∈ recsOf (l.foldl
        (processTripDepartures trips stopId routeFilter now dayStart) acc),
        depRecOrigin stopTimes stopId dayStart d
  | [], _, _, hacc => hacc
  | e :: l, acc, hl, hacc => by
    rw [List.foldl_cons]
    exact collectDepartures_origin_aux stopTimes trips stopId routeFilter
      now dayStart l _
      (fun e' he' => hl e' (List.mem_cons_of_mem e he'))
      (processTripDepartures_origin stopTimes trips stopId routeFilter now
        dayStart acc e (hl e (List.mem_cons_self e l)) hacc)

/-- `find?` returns the first match, which in a stop-sequence-sorted
list carries the minimal stop sequence among the matches. -/
theorem find?_stopSequence_min (stopId : String) :
    ∀ (sts : List GTFSStopTime) (st : GTFSStopTime),
      sts.Pairwise (fun a b => a.stopSequence ≤ b.stopSequence) →
      sts.find? (fun x => x.stopId == stopId) = some st →
      ∀ st' ∈ sts, st'.stopId = stopId → st.stopSequence ≤ st'.stopSequence
  | [], st, _, hfind => by simp at hfind
  | a :: sts, st, hsorted, hfind => by
    rcases List.pairwise_cons.mp hsorted with ⟨ha, hsts⟩
    rw [List.find?_cons] at hfind
    cases hba : (a.stopId == stopId) with
    | true =>
      rw [hba] at hfind
      cases hfind
      intro st' hst' _
      rcases List.mem_cons.mp hst' with rfl | hmem
      · exact le_refl _
      · exact ha st' hmem
    | false =>
      rw [hba] at hfind
      intro st' hst' hstop
      rcases List.mem_cons.mp hst' with rfl | hmem
      · exact absurd hstop (by simpa using hba)
      · exact find?_stopSequence_min stopId sts st hsts hfind st' hmem hstop

/-- C10: when a trip's stop-time list contains several entries for the
requested stop, `getScheduledDepartures` considers only the first
matching entry (minimal stop sequence in a sequence-sorted list); each
trip contributes at most one candidate departure record per call. -/
theorem getScheduledDepartures_first_visit_only
    (stopTimes : List (String × List GTFSStopTime))
    (trips : List (String × GTFSTrip)) (stopId : String)
    (routeFilter : Option String) (now dayStart : Int) (tid : String)
    (hkeys : (stopTimes.map Prod.fst).Nodup) :
    countTripRecs tid
        (collectDepartures stopTimes trips stopId routeFilter now dayStart)
      ≤ 1
    ∧ (∀ d ∈ recsOf
          (collectDepartures stopTimes trips stopId routeFilter now
            dayStart),
        ∃ sts st, mapGet d.tripId stopTimes = some sts
          ∧ sts.find? (fun x => x.stopId == stopId) = some st
          ∧ parseGtfsTime? dayStart st.departureTime = some d.time
          ∧ (sts.Pairwise (fun a b => a.stopSequence ≤ b.stopSequence) →
              ∀ st' ∈ sts, st'.stopId = stopId →
                st.stopSequence ≤ st'.stopSequence)) := by
  constructor
  · have := collectDepartures_count_aux trips stopId routeFilter now
      dayStart tid stopTimes [] (by simp) hkeys
    unfold collectDepartures
    have hzero : countTripRecs tid ([] : List (String × List DepRec)) = 0 :=
      rfl
    rw [hzero] at this
    split at this
    · omega
    · omega
  · intro d hd
    have horigin := collectDepartures_origin_aux stopTimes trips stopId
      routeFilter now dayStart stopTimes []
      (fun e he => mapGet_of_mem_nodup stopTimes e hkeys he)
      (by intro d hd; cases hd) d hd
    rcases horigin with ⟨sts, st, hsts, hfind, hparse⟩
    exact ⟨sts, st, hsts, hfind, hparse,
      fun hsorted st' hst' hstop =>
        find?_stopSequence_min stopId sts st hsorted hfind st' hst' hstop⟩

/-- Witness for C10: trip "T1" visits stop "S100" twice (sequences 2
and 7); it contributes at most one departure record. -/
theorem getScheduledDepartures_first_visit_only_witness :
    countTripRecs "T1"
      (collectDepartures
        [("T1", [⟨"T1", "08:00:00", "08:00:00", "S100", 2⟩,
                 ⟨"T1", "09:00:00", "09:00:00", "S100", 7⟩])]
        [("T1", ⟨"T1", "R1", "Downtown"⟩)] "S100" none 0 0) ≤ 1 :=
  (getScheduledDepartures_first_visit_only
    [("T1", [⟨"T1", "08:00:00", "08:00:00", "S100", 2⟩,
             ⟨"T1", "09:00:00", "09:00:00", "S100", 7⟩])]
    [("T1", ⟨"T1", "R1", "Downtown"⟩)] "S100" none 0 0 "T1"
    (by decide)).1

/-- JS `Math.atan2` on real inputs (idealized real-valued semantics of
the float computation). -/
noncomputable def jsAtan2 (y x : ℝ) : ℝ :=
  if 0 < x then Real.arctan (y / x)
  else if x < 0 ∧ 0 ≤ y then Real.arctan (y / x) + Real.pi
  else if x < 0 ∧ y < 0 then Real.arctan (y / x) - Real.pi
  else if x = 0 ∧ 0 < y then Real.pi / 2
  else if x = 0 ∧ y < 0 then -(Real.pi / 2)
  else 0

/-- `GTFSService.toRadians` (gtfsService.ts lines 890-892). -/
noncomputable def toRadians (degrees : ℝ) : ℝ := degrees * (Real.pi / 180)

/-- `GTFSService.calculateDistance` (gtfsService.ts lines 869-888):
haversine great-circle distance with Earth radius 6,371,000 m. -/
noncomputable def calculateDistance (lat1 lon1 lat2 lon2 : ℝ) : ℝ :=
  let R : ℝ := 6371000
  let dLat := toRadians (lat2 - lat1)
  let dLon := toRadians (lon2 - lon1)
  let a := Real.sin (dLat / 2) * Real.sin (dLat / 2)
    + Real.cos (toRadians lat1) * Real.cos (toRadians lat2)
      * Real.sin (dLon / 2) * Real.sin (dLon / 2)
  let c := 2 * jsAtan2 (Real.sqrt a) (Real.sqrt (1 - a))
  R * c

/-- JS `Math.round`: round half up, `⌊x + 1/2⌋`. -/
noncomputable def jsRound (x : ℝ) : ℤ := ⌊x + 1 / 2⌋

/-- `GTFSService.getNearbyStops` (gtfsService.ts lines 670-697): keep
the stops whose haversine distance is `≤ radiusMeters`, pair each with
its distance rounded to the nearest meter, and sort ascending by that
(rounded) distance. -/
noncomputable def getNearbyStops (stops : List (String × GTFSStop))
    (latitude longitude radiusMeters : ℝ) : List (GTFSStop × ℤ) :=
  ((stops.filter (fun p =>
      decide (calculateDistance latitude longitude p.2.stopLat p.2.stopLon
        ≤ radiusMeters))).map (fun p =>

    (p.2, jsRound
      (calculateDistance latitude longitude p.2.stopLat p.2.stopLon)))).mergeSort
    (fun a b => decide (a.2 ≤ b.2))

theorem jsAtan2_nonneg (y x : ℝ) (hy : 0 ≤ y) : 0 ≤ jsAtan2 y x := by
  unfold jsAtan2
  split_ifs with h1 h2 h3 h4 h5
  · have h0 : Real.arctan 0 ≤ Real.arctan (y / x) :=
      Real.arctan_strictMono.monotone (div_nonneg hy h1.le)
    rwa [Real.arctan_zero] at h0
  · have harc := Real.neg_pi_div_two_lt_arctan (y / x)
    have hpi := Real.pi_pos
    linarith
  · linarith [h3.2]
  · have hpi := Real.pi_pos
    linarith
  · linarith [h5.2]
  · exact le_refl 0

theorem calculateDistance_nonneg (lat1 lon1 lat2 lon2 : ℝ) :
    0 ≤ calculateDistance lat1 lon1 lat2 lon2 := by
  unfold calculateDistance
  dsimp only
  refine mul_nonneg (by norm_num) (mul_nonneg (by norm_num) ?_)
  exact jsAtan2_nonneg _ _ (Real.sqrt_nonneg _)

/-- C5: `getNearbyStops` returns exactly the loaded stops whose
haversine distance from the query point is `≤ radiusMeters`, each
paired with its distance rounded to the nearest meter, and the returned
list is sorted non-decreasing by distance. -/
theorem getNearbyStops_spec (stops : List (String × GTFSStop))
    (latitude longitude radiusMeters : ℝ) :
    (∀ p ∈ getNearbyStops stops latitude longitude radiusMeters,
      (∃ k, (k, p.1) ∈ stops)
      ∧ calculateDistance latitude longitude p.1.stopLat p.1.stopLon
          ≤ radiusMeters
      ∧ p.2 = jsRound
          (calculateDistance latitude longitude p.1.stopLat p.1.stopLon))
    ∧ (∀ q ∈ stops,
        calculateDistance latitude longitude q.2.stopLat q.2.stopLon
            ≤ radiusMeters →
        (q.2, jsRound
            (calculateDistance latitude longitude q.2.stopLat q.2.stopLon))
          ∈ getNearbyStops stops latitude longitude radiusMeters)
    ∧ (getNearbyStops stops latitude longitude radiusMeters).Pairwise
        (fun a b => a.2 ≤ b.2) := by
  refine ⟨?_, ?_, ?_⟩
  · intro p hp
    rw [getNearbyStops, List.mem_mergeSort] at hp
    rcases List.mem_map.mp hp with ⟨q, hq, hpq⟩
    rcases List.mem_filter.mp hq with ⟨hqmem, hqdist⟩
    subst hpq
    refine ⟨⟨q.1, hqmem⟩, of_decide_eq_true hqdist, rfl⟩
  · intro q hq hdist
    rw [getNearbyStops, List.mem_mergeSort]
    exact List.mem_map.mpr ⟨q,
      List.mem_filter.mpr ⟨hq, decide_eq_true hdist⟩, rfl⟩
  · have htrans : ∀ a b c : GTFSStop × ℤ,
        (fun a b => decide (a.2 ≤ b.2)) a b = true →
        (fun a b => decide (a.2 ≤ b.2)) b c = true →
        (fun a b => decide (a.2 ≤ b.2)) a c = true := by
      intro a b c hab hbc
      exact decide_eq_true
        (le_trans (of_decide_eq_true hab) (of_decide_eq_true hbc))
    have htotal : ∀ a b : GTFSStop × ℤ,
        ((fun a b => decide (a.2 ≤ b.2)) a b
          || (fun a b => decide (a.2 ≤ b.2)) b a) = true := by
      intro a b
      rcases le_total a.2 b.2 with h | h
      · simp [h]
      · simp [h]
    have hs := List.sorted_mergeSort htrans htotal
      ((stops.filter (fun p =>
        decide (calculateDistance latitude longitude p.2.stopLat
          p.2.stopLon ≤ radiusMeters))).map (fun p =>
        (p.2, jsRound
          (calculateDistance latitude longitude p.2.stopLat p.2.stopLon))))
    rw [getNearbyStops]
    exact hs.imp (fun h => of_decide_eq_true h)

/-- A stop located exactly at the query origin. -/
def stopAtOrigin : GTFSStop :=
  { stopId := "S1", stopName := "Stop 1", stopDesc := none,
    stopLat := 0, stopLon := 0, stopCode := none }

theorem calculateDistance_self (lat lon : ℝ) :
    calculateDistance lat lon lat lon = 0 := by
  unfold calculateDistance toRadians
  rw [sub_self, sub_self, zero_mul]
  norm_num [Real.sin_zero, Real.sqrt_zero, Real.sqrt_one, jsAtan2,
    Real.arctan_zero]

/-- C6 counterexample: with radius exactly `0` and a stop located
exactly at the query point, the stop is at haversine distance `0 ≤ 0`
and is returned, so the result is not the empty list as the claim
requires for every `radiusMeters ≤ 0`. -/
theorem getNearbyStops_radius_zero_counterexample :
    getNearbyStops [("S1", stopAtOrigin)] 0 0 0 = [(stopAtOrigin, 0)] := by
  have hd : calculateDistance 0 0 stopAtOrigin.stopLat
      stopAtOrigin.stopLon = 0 := calculateDistance_self 0 0
  have hp : (decide (calculateDistance 0 0 stopAtOrigin.stopLat
      stopAtOrigin.stopLon ≤ (0 : ℝ))) = true :=
    decide_eq_true (le_of_eq hd)
  have hround : jsRound (calculateDistance 0 0 stopAtOrigin.stopLat
      stopAtOrigin.stopLon) = 0 := by
    rw [hd, jsRound]
    norm_num [Int.floor_eq_zero_iff]
  rw [getNearbyStops,
    @List.filter_cons_of_pos _
      (fun p => decide (calculateDistance 0 0 p.2.stopLat p.2.stopLon
        ≤ (0 : ℝ)))
      ("S1", stopAtOrigin) [] (by exact hp),
    List.filter_nil, List.map_cons, List.map_nil]
  dsimp only
  rw [hround, List.mergeSort_singleton]

/-- C6 amended: for every strictly negative radius the result is empty
(the haversine distance is always nonnegative, but with radius exactly
`0` a stop at distance exactly `0` is still returned, so "radius ≤ 0"
had to become "radius < 0"). -/
theorem getNearbyStops_negative_radius_empty
    (stops : List (String × GTFSStop)) (latitude longitude : ℝ)
    (radiusMeters : ℝ) (hr : radiusMeters < 0) :
    getNearbyStops stops latitude longitude radiusMeters = [] := by
  have hfilter : stops.filter (fun p =>
      decide (calculateDistance latitude longitude p.2.stopLat p.2.stopLon
        ≤ radiusMeters)) = [] := by
    rw [List.filter_eq_nil_iff]
    intro p _
    simp only [decide_eq_true_eq]
    exact not_le.mpr
      (lt_of_lt_of_le hr (calculateDistance_nonneg latitude longitude
        p.2.stopLat p.2.stopLon))
  rw [getNearbyStops, hfilter, List.map_nil, List.mergeSort_nil]

/-- Witness for the amended C6 at a concrete input: radius `-1` yields
the empty list even with a stop at the query point. -/
theorem getNearbyStops_negative_radius_empty_witness :
    getNearbyStops [("S1", stopAtOrigin)] 0 0 (-1) = [] :=
  getNearbyStops_negative_radius_empty [("S1", stopAtOrigin)] 0 0 (-1)
    (by norm_num)

end PebbleTransit
